import Mathlib

/-!
Verification of the portfolio ledger and price-update logic of the
browser paper-trading simulator in `src/script.js` (class `TradingGame`).

Shallow embedding conventions:
* JS numbers holding money and prices become `ℚ` (the code only adds,
  subtracts, multiplies and compares them); share quantities and order
  amounts (produced by `parseInt`) become `ℤ`.
* `Date` values become `ℕ` millisecond timestamps; the textual form a
  timestamp takes inside the persisted JSON blob is modelled as its decimal
  digit list (`Nat.digits 10`), and `new Date(string)` as `Nat.ofDigits 10`.
* JS truthiness of a number (`x || d`) is modelled by `jsOr`: a value is
  falsy exactly when it equals 0 (or is absent).
* Methods that mutate `this` become functions `GameState → GameState`;
  methods that bail out via `alert`/early return become `Except`.
* Network responses are modelled structurally (`FetchResponse`): a thrown
  error, a non-ok status, a body missing `chart.result[0]`, or a
  `ChartResult` carrying the optional `meta.regularMarketPrice`, the
  optional `indicators.quote[0].close` series (whose entries may be null),
  and the optional `meta.currency`.
-/

/-- Transaction kind: the `type` field of a history entry, `'buy'` or `'sell'`. -/
inductive TxType
  | buy
  | sell
  deriving DecidableEq

/-- One entry of `transactionHistory` as built by `addTransaction`:
`{ type, amount, price, total: amount * price, timestamp: new Date() }`. -/
structure Transaction where
  type : TxType
  amount : ℤ
  price : ℚ
  total : ℚ
  timestamp : ℕ
  deriving DecidableEq

/-- The mutable fields of the `TradingGame` instance that form the
portfolio state (constructor lines 4-9 of `script.js`). -/
structure GameState where
  currentPrice : ℚ
  previousPrice : ℚ
  cashBalance : ℚ
  shares : ℤ
  transactionHistory : List Transaction
  lastUpdate : Option ℕ
  deriving DecidableEq

/-- The constructor's initial field values: price 0, previous 0,
cash 1,000,000, no shares, empty history, no last update. -/
def initialState : GameState :=
  { currentPrice := 0
    previousPrice := 0
    cashBalance := 1000000
    shares := 0
    transactionHistory := []
    lastUpdate := none }

/-- JS `a || b` on numbers: `b` when `a` is falsy (0), else `a`. -/
def jsOr (a b : ℚ) : ℚ := if a = 0 then b else a

/-- JS `a || b` on integer-valued numbers. -/
def jsOrInt (a b : ℤ) : ℤ := if a = 0 then b else a

/-- The user-facing rejection kinds of `buy` and `sell` (the `alert` early
returns), plus the two from `sell`. -/
inductive TradeError
  | invalidQuantity
  | priceUnavailable
  | insufficientFunds
  | insufficientShares
  deriving DecidableEq

/-- Method `addTransaction(type, amount, price)`: unshift a new entry, then trim
the history to its first 50 entries when it exceeds 50 (lines 344-357). -/
def addTransaction (ty : TxType) (amount : ℤ) (price : ℚ) (now : ℕ)
    (s : GameState) : GameState :=
  let h : List Transaction :=
    { type := ty, amount := amount, price := price,
      total := (amount : ℚ) * price, timestamp := now } :: s.transactionHistory
  { s with transactionHistory := if 50 < h.length then h.take 50 else h }

/-- Method `buy()` (lines 282-311): rejects `amount ≤ 0`, then `currentPrice == 0`,
then `cost > cashBalance`; otherwise debits cash, credits shares and
records a buy transaction. An error models the `alert` early return,
leaving the state untouched. -/
def buy (amount : ℤ) (now : ℕ) (s : GameState) : Except TradeError GameState :=
  if amount ≤ 0 then .error .invalidQuantity
  else if s.currentPrice = 0 then .error .priceUnavailable
  else
    let cost : ℚ := (amount : ℚ) * s.currentPrice
    if s.cashBalance < cost then .error .insufficientFunds
    else .ok (addTransaction .buy amount s.currentPrice now
      { s with cashBalance := s.cashBalance - cost, shares := s.shares + amount })

/-- Method `sell()` (lines 313-342): rejects `amount ≤ 0`, then `currentPrice == 0`,
then `amount > shares`; otherwise credits cash, debits shares and records
a sell transaction. -/
def sell (amount : ℤ) (now : ℕ) (s : GameState) : Except TradeError GameState :=
  if amount ≤ 0 then .error .invalidQuantity
  else if s.currentPrice = 0 then .error .priceUnavailable
  else if s.shares < amount then .error .insufficientShares
  else
    let revenue : ℚ := (amount : ℚ) * s.currentPrice
    .ok (addTransaction .sell amount s.currentPrice now
      { s with cashBalance := s.cashBalance + revenue, shares := s.shares - amount })

/-- The state after a `buy()` call: the new state on success, the old state
when the order was rejected. -/
def buyApply (amount : ℤ) (now : ℕ) (s : GameState) : GameState :=
  match buy amount now s with
  | .ok t => t
  | .error _ => s

/-- The state after a `sell()` call. -/
def sellApply (amount : ℤ) (now : ℕ) (s : GameState) : GameState :=
  match sell amount now s with
  | .ok t => t
  | .error _ => s

/-- Method `reset()` (lines 385-398): when the user confirms, set cash to
1,000,000, shares to 0 and clear the history; an unconfirmed reset is the
early return. Note the code touches no other field. -/
def reset (confirmed : Bool) (s : GameState) : GameState :=
  if confirmed then
    { s with cashBalance := 1000000, shares := 0, transactionHistory := [] }
  else s

/-- The `meta.currency` code of a quote response: the code only
distinguishes USD (convert), JPY (use as-is) and anything else
(warn and treat as JPY). -/
inductive Currency
  | usd
  | jpy
  | other
  deriving DecidableEq

/-- The part of a Yahoo chart response body that the code reads out of
`data.chart.result[0]`: `meta.regularMarketPrice` (absent is `none`),
`indicators.quote[0].close` (`none` when the `indicators` path is missing;
entries of the series may themselves be null), and `meta.currency`. -/
structure ChartResult where
  regularMarketPrice : Option ℚ
  closes : Option (List (Option ℚ))
  currency : Option Currency
  deriving DecidableEq

/-- The outcomes of one `fetch` call as the code distinguishes them: a
thrown error (network failure / malformed JSON), a non-ok HTTP status, a
JSON body without `chart.result[0]`, or a usable `ChartResult`. -/
inductive FetchResponse
  | failure
  | badStatus
  | noResult
  | ok (result : ChartResult)
  deriving DecidableEq

/-- The quote-extraction pattern shared by `fetchUsdJpyRate` and
`fetchFromYahoo`: take `meta.regularMarketPrice`; when that is falsy
(absent or 0) and the close series is present and nonempty, take its last
entry instead (which may itself be null). -/
def extractQuote (r : ChartResult) : Option ℚ :=
  let q := r.regularMarketPrice
  if q = none ∨ q = some 0 then
    match r.closes with
    | some qs =>
      match qs.getLast? with
      | some lastClose => lastClose
      | none => q
    | none => q
  else q

/-- Method `fetchUsdJpyRate()` (lines 106-147): extract a rate from the USDJPY=X
chart response; return it when it is a positive number inside the 100-200
band, and the fallback constant 150 in every other case (bad status,
thrown error, missing structure, missing value, non-positive or
out-of-band rate). -/
def fetchUsdJpyRate (resp : FetchResponse) : ℚ :=
  match resp with
  | .ok r =>
    match extractQuote r with
    | some v => if 0 < v ∧ 100 ≤ v ∧ v ≤ 200 then v else 150
    | none => 150
  | _ => 150

/-- JS `Math.round(x * 100) / 100`: round to 2 decimal places, halves
toward positive infinity. -/
def round2 (x : ℚ) : ℚ := (⌊x * 100 + 1 / 2⌋ : ℚ) / 100

/-- The currency normalization step of `fetchFromYahoo` (lines 180-192):
multiply by the USD/JPY rate when the reported currency is USD; any other
currency (JPY, something unexpected, or absent) is used as-is. -/
def normalizeQuote (c : Option Currency) (fxRate q : ℚ) : ℚ :=
  match c with
  | some .usd => q * fxRate
  | _ => q

/-- Method `fetchFromYahoo(symbol)` (lines 149-210): extract a quote from the
chart response; when it is positive, normalize it to JPY (fetching the FX
rate when the currency is USD), reject it as `null` when the normalized
value lies outside the 15,000-60,000 band, and otherwise return it rounded
to 2 decimals. Every failure path returns `null` (`none`). -/
def fetchFromYahoo (resp fxResp : FetchResponse) : Option ℚ :=
  match resp with
  | .ok r =>
    match extractQuote r with
    | some q =>
      if 0 < q then
        let priceInJPY := normalizeQuote r.currency (fetchUsdJpyRate fxResp) q
        if priceInJPY < 15000 ∨ 60000 < priceInJPY then none
        else some (round2 priceInJPY)
      else none
    | none => none
  | _ => none

/-- The display status `fetchPrice` leaves in the `lastUpdate` element:
either a fresh timestamp was applied, or the connection-failed message
(`'API接続失敗 - 前回の価格を表示中'` / the catch branch's message). -/
inductive FetchStatus
  | updated
  | connectionFailed
  deriving DecidableEq

/-- The state mutation of `fetchPrice()` (lines 57-104) given the value
`fetchFromYahoo` produced (`none` covers both a `null` return and a thrown
error, whose handling is identical): a positive price is applied
(`previousPrice := currentPrice || price`, `currentPrice := price`,
`lastUpdate := now`); otherwise the existing price is kept, except that on
the very first observation (`currentPrice === 0`) both prices are seeded
with the constant 39,000, and the connection-failed status is shown. -/
def fetchPriceApply (price : Option ℚ) (now : ℕ) (s : GameState) :
    GameState × FetchStatus :=
  match price with
  | some p =>
    if 0 < p then
      ({ s with previousPrice := jsOr s.currentPrice p,
                currentPrice := p,
                lastUpdate := some now }, .updated)
    else if s.currentPrice = 0 then
      ({ s with currentPrice := 39000, previousPrice := 39000 }, .connectionFailed)
    else (s, .connectionFailed)
  | none =>
    if s.currentPrice = 0 then
      ({ s with currentPrice := 39000, previousPrice := 39000 }, .connectionFailed)
    else (s, .connectionFailed)

/-- A history entry as it sits in the persisted JSON blob: the same fields,
with the `Date` serialized to its textual form (modelled as the decimal
digit list of the millisecond timestamp). -/
structure StoredTransaction where
  type : TxType
  amount : ℤ
  price : ℚ
  total : ℚ
  timestamp : List ℕ
  deriving DecidableEq

/-- The persisted `tradingGameState` blob written by `saveState`
(lines 432-443): the five state fields plus the history, timestamps in
textual form. -/
structure StoredState where
  cashBalance : ℚ
  shares : ℤ
  transactionHistory : List StoredTransaction
  currentPrice : ℚ
  previousPrice : ℚ
  lastUpdate : Option (List ℕ)
  deriving DecidableEq

/-- Serialization of a `Date` into the JSON blob (`JSON.stringify` writes
its textual form): the decimal digits of the timestamp. -/
def dateToText (t : ℕ) : List ℕ := Nat.digits 10 t

/-- Deserialization, `new Date(text)`: reconstruct the timestamp value from its textual
form. -/
def textToDate (d : List ℕ) : ℕ := Nat.ofDigits 10 d

/-- Method `saveState()` (lines 432-443): serialize the full state into the
stored blob. -/
def saveState (s : GameState) : StoredState :=
  { cashBalance := s.cashBalance
    shares := s.shares
    transactionHistory := s.transactionHistory.map fun tx =>
      { type := tx.type, amount := tx.amount, price := tx.price,
        total := tx.total, timestamp := dateToText tx.timestamp }
    currentPrice := s.currentPrice
    previousPrice := s.previousPrice
    lastUpdate := s.lastUpdate.map dateToText }

/-- Method `loadState()` (lines 445-470) applied to the current state: with no
stored blob the state is left as it is; otherwise every numeric field is
taken from the blob through JS `||` defaulting (`cashBalance || 1000000`,
`shares || 0`, `currentPrice || 0`, `previousPrice || 0`), `lastUpdate` is
reconstructed as a `Date` only when the stored value is truthy (otherwise
the field keeps its current value), and every history timestamp is
reconstructed via `new Date`. -/
def loadState (saved : Option StoredState) (s : GameState) : GameState :=
  match saved with
  | none => s
  | some st =>
    { currentPrice := jsOr st.currentPrice 0
      previousPrice := jsOr st.previousPrice 0
      cashBalance := jsOr st.cashBalance 1000000
      shares := jsOrInt st.shares 0
      transactionHistory := st.transactionHistory.map fun tx =>
        { type := tx.type, amount := tx.amount, price := tx.price,
          total := tx.total, timestamp := textToDate tx.timestamp }
      lastUpdate :=
        match st.lastUpdate with
        | some d => some (textToDate d)
        | none => s.lastUpdate }

/-- Reachable portfolio states: the constructor's initial state, closed
under the five mutating operations — buy, sell, the `fetchPrice` update,
reset, and loading a blob that `saveState` wrote for some reachable state
(or loading when no blob exists). -/
inductive Reachable : GameState → Prop
  | init : Reachable initialState
  | buyStep (a : ℤ) (now : ℕ) {s : GameState} :
      Reachable s → Reachable (buyApply a now s)
  | sellStep (a : ℤ) (now : ℕ) {s : GameState} :
      Reachable s → Reachable (sellApply a now s)
  | priceStep (p : Option ℚ) (now : ℕ) {s : GameState} :
      Reachable s → Reachable (fetchPriceApply p now s).1
  | resetStep (c : Bool) {s : GameState} :
      Reachable s → Reachable (reset c s)
  | loadStep {s t : GameState} :
      Reachable s → Reachable t → Reachable (loadState (some (saveState t)) s)
  | loadNoneStep {s : GameState} :
      Reachable s → Reachable (loadState none s)

/-- A state with a live price of 39,000 and the starting cash, as in the
spec's buy example. -/
def stateB : GameState :=
  { currentPrice := 39000
    previousPrice := 0
    cashBalance := 1000000
    shares := 0
    transactionHistory := []
    lastUpdate := none }

/-- State `stateB` holding 5 shares, as in the spec's sell example. -/
def stateS : GameState := { stateB with shares := 5 }

/-- C3: `buy` rejects a non-positive amount as `InvalidQuantity`, then a
zero price as `PriceUnavailable`, then an order costing more than the cash
balance as `InsufficientFunds` — each rejection leaving the state
unchanged — and otherwise debits the cost, credits the shares and records
a buy transaction at the execution price. -/
theorem buy_cases (a : ℤ) (now : ℕ) (s : GameState) :
    (a ≤ 0 → buy a now s = .error .invalidQuantity ∧ buyApply a now s = s)
  ∧ (0 < a → s.currentPrice = 0 →
      buy a now s = .error .priceUnavailable ∧ buyApply a now s = s)
  ∧ (0 < a → s.currentPrice ≠ 0 → s.cashBalance < (a : ℚ) * s.currentPrice →
      buy a now s = .error .insufficientFunds ∧ buyApply a now s = s)
  ∧ (0 < a → s.currentPrice ≠ 0 → (a : ℚ) * s.currentPrice ≤ s.cashBalance →
      buy a now s = .ok (addTransaction .buy a s.currentPrice now
        { s with cashBalance := s.cashBalance - (a : ℚ) * s.currentPrice,
                 shares := s.shares + a })) := by
  refine ⟨fun ha => ?_, fun ha hp => ?_, fun ha hp hc => ?_, fun ha hp hc => ?_⟩
  · simp [buy, buyApply, ha]
  · simp [buy, buyApply, ha, hp, not_le.mpr ha]
  · simp [buy, buyApply, not_le.mpr ha, hp, hc]
  · simp [buy, buyApply, not_le.mpr ha, hp, not_lt.mpr hc]

/-- Witness for C3: the spec's concrete example, `buy(100)` at price
39,000 with cash 1,000,000 is rejected for insufficient funds. -/
theorem buy_cases_witness :
    buy 100 0 stateB = .error .insufficientFunds ∧ buyApply 100 0 stateB = stateB :=
  (buy_cases 100 0 stateB).2.2.1 (by norm_num) (by norm_num [stateB])
    (by norm_num [stateB])

/-- C4: `sell` rejects a non-positive amount as `InvalidQuantity`, then a
zero price as `PriceUnavailable`, then an amount exceeding the held shares
as `InsufficientShares` — each rejection leaving the state unchanged — and
otherwise credits the proceeds, debits the shares and records a sell
transaction at the execution price. -/
theorem sell_cases (a : ℤ) (now : ℕ) (s : GameState) :
    (a ≤ 0 → sell a now s = .error .invalidQuantity ∧ sellApply a now s = s)
  ∧ (0 < a → s.currentPrice = 0 →
      sell a now s = .error .priceUnavailable ∧ sellApply a now s = s)
  ∧ (0 < a → s.currentPrice ≠ 0 → s.shares < a →
      sell a now s = .error .insufficientShares ∧ sellApply a now s = s)
  ∧ (0 < a → s.currentPrice ≠ 0 → a ≤ s.shares →
      sell a now s = .ok (addTransaction .sell a s.currentPrice now
        { s with cashBalance := s.cashBalance + (a : ℚ) * s.currentPrice,
                 shares := s.shares - a })) := by
  refine ⟨fun ha => ?_, fun ha hp => ?_, fun ha hp hc => ?_, fun ha hp hc => ?_⟩
  · simp [sell, sellApply, ha]
  · simp [sell, sellApply, ha, hp, not_le.mpr ha]
  · simp [sell, sellApply, not_le.mpr ha, hp, hc]
  · simp [sell, sellApply, not_le.mpr ha, hp, not_lt.mpr hc]

/-- Witness for C4: the spec's concrete example, `sell(10)` with only 5
shares held is rejected for insufficient shares. -/
theorem sell_cases_witness :
    sell 10 0 stateS = .error .insufficientShares ∧ sellApply 10 0 stateS = stateS :=
  (sell_cases 10 0 stateS).2.2.1 (by norm_num) (by norm_num [stateS, stateB])
    (by norm_num [stateS, stateB])

/-- Lemma: `addTransaction` only touches the history: the price field is kept. -/
@[simp] lemma addTransaction_currentPrice (ty : TxType) (a : ℤ) (p : ℚ) (now : ℕ)
    (s : GameState) : (addTransaction ty a p now s).currentPrice = s.currentPrice := by
  simp [addTransaction]

/-- Lemma: `addTransaction` keeps the cash balance. -/
@[simp] lemma addTransaction_cashBalance (ty : TxType) (a : ℤ) (p : ℚ) (now : ℕ)
    (s : GameState) : (addTransaction ty a p now s).cashBalance = s.cashBalance := by
  simp [addTransaction]

/-- Lemma: `addTransaction` keeps the share count. -/
@[simp] lemma addTransaction_shares (ty : TxType) (a : ℤ) (p : ℚ) (now : ℕ)
    (s : GameState) : (addTransaction ty a p now s).shares = s.shares := by
  simp [addTransaction]

/-- The success case of `buy`, with the produced state spelled out. -/
lemma buy_ok {a : ℤ} {s : GameState} (now : ℕ) (ha : ¬ a ≤ 0)
    (hp : ¬ s.currentPrice = 0) (hc : ¬ s.cashBalance < (a : ℚ) * s.currentPrice) :
    buy a now s = .ok (addTransaction .buy a s.currentPrice now
      { s with cashBalance := s.cashBalance - (a : ℚ) * s.currentPrice,
               shares := s.shares + a }) := by
  simp [buy, ha, hp, hc]

/-- The success case of `sell`, with the produced state spelled out. -/
lemma sell_ok {a : ℤ} {s : GameState} (now : ℕ) (ha : ¬ a ≤ 0)
    (hp : ¬ s.currentPrice = 0) (hs : ¬ s.shares < a) :
    sell a now s = .ok (addTransaction .sell a s.currentPrice now
      { s with cashBalance := s.cashBalance + (a : ℚ) * s.currentPrice,
               shares := s.shares - a }) := by
  simp [sell, ha, hp, hs]

/-- C8: a successful `buy` of quantity `q` followed by a `sell` of the
same quantity at the same (unchanged) price restores both the cash
balance and the share count to their pre-trade values. -/
theorem buy_sell_roundtrip (q : ℤ) (n1 n2 : ℕ) (s : GameState)
    (hq : 0 < q) (hp : 0 < s.currentPrice) (hs : 0 ≤ s.shares)
    (hc : (q : ℚ) * s.currentPrice ≤ s.cashBalance) :
    ∃ t u : GameState, buy q n1 s = .ok t ∧ sell q n2 t = .ok u ∧
      t.currentPrice = s.currentPrice ∧
      u.cashBalance = s.cashBalance ∧ u.shares = s.shares := by
  have ha : ¬ q ≤ 0 := not_le.mpr hq
  have hp0 : ¬ s.currentPrice = 0 := ne_of_gt hp
  have hc' : ¬ s.cashBalance < (q : ℚ) * s.currentPrice := not_lt.mpr hc
  refine ⟨_, _, buy_ok n1 ha hp0 hc',
    sell_ok n2 ha (by simpa using hp0) (by simp; omega), by simp, ?_, ?_⟩
  · simp
  · simp

/-- Witness for C8: buying and then selling 3 shares at price 20,000 from
the initial 1,000,000 cash restores cash and shares exactly. -/
theorem buy_sell_roundtrip_witness :
    ∃ t u : GameState, buy 3 1 stateB = .ok t ∧ sell 3 2 t = .ok u ∧
      t.currentPrice = stateB.currentPrice ∧
      u.cashBalance = stateB.cashBalance ∧ u.shares = stateB.shares :=
  buy_sell_roundtrip 3 1 2 stateB (by norm_num) (by norm_num [stateB])
    (by norm_num [stateB]) (by norm_num [stateB])

/-- Counterexample for C5: resetting from a state whose price is 39,000
does restore cash, shares and the log, but `currentPrice` stays 39,000 —
the claim's "replaces the entire PortfolioState with the default
(currentPrice = 0)" is false on the code, which only assigns the three
fields. -/
theorem reset_cex :
    (reset true stateB).cashBalance = 1000000 ∧
    (reset true stateB).shares = 0 ∧
    (reset true stateB).transactionHistory = [] ∧
    (reset true stateB).currentPrice ≠ 0 := by
  norm_num [reset, stateB]

/-- C5 (amended): a confirmed `reset()` sets `cashBalance := 1,000,000`,
`shares := 0` and empties the transaction log, leaving `currentPrice`,
`previousPrice` and `lastUpdate` as they were; an unconfirmed reset leaves
the state unchanged. -/
theorem reset_spec (s : GameState) :
    reset true s = { s with cashBalance := 1000000, shares := 0,
                            transactionHistory := [] }
  ∧ reset false s = s := by
  simp [reset]

/-- C10: when a fetch fails or is rejected (`fetchFromYahoo` produced
`null`) while no price has ever been observed (`currentPrice == 0`), both
prices are seeded with the fixed constant 39,000 and the connection-failed
status is shown; when a price is already present, the failure leaves both
prices (and the rest of the state) unchanged. -/
theorem seed_policy (s : GameState) (now : ℕ) :
    (s.currentPrice = 0 →
      fetchPriceApply none now s =
        ({ s with currentPrice := 39000, previousPrice := 39000 },
         .connectionFailed))
  ∧ (s.currentPrice ≠ 0 → fetchPriceApply none now s = (s, .connectionFailed)) := by
  constructor
  · intro h
    simp [fetchPriceApply, h]
  · intro h
    simp [fetchPriceApply, h]

/-- Witness for C10: on the initial state (no price yet) a failed fetch
seeds both prices with 39,000 and reports the connection failure; on
`stateB` (price 39,000 present) it changes nothing. -/
theorem seed_policy_witness :
    fetchPriceApply none 0 initialState =
      ({ initialState with currentPrice := 39000, previousPrice := 39000 },
       .connectionFailed)
  ∧ fetchPriceApply none 0 stateB = (stateB, .connectionFailed) :=
  ⟨(seed_policy initialState 0).1 (by norm_num [initialState]),
   (seed_policy stateB 0).2 (by norm_num [stateB])⟩

/-- The Conversion Helper's contract as the spec words it: the extracted
rate when it lies within the 100-200 band, the fallback constant 150 in
every other case. -/
def fxRateSpec (resp : FetchResponse) : ℚ :=
  match resp with
  | .ok r =>
    match extractQuote r with
    | some v => if 100 ≤ v ∧ v ≤ 200 then v else 150
    | none => 150
  | _ => 150

/-- C9: `fetchUsdJpyRate` is total (it returns a rational on every
response shape) and coincides with the spec's description: the fetched
rate when it lies within the 100-200 band, the fixed fallback 150 on any
failure, missing value or out-of-band rate. -/
theorem fetchUsdJpyRate_spec (resp : FetchResponse) :
    fetchUsdJpyRate resp = fxRateSpec resp := by
  cases resp with
  | ok r =>
    simp only [fetchUsdJpyRate, fxRateSpec]
    cases hq : extractQuote r with
    | none => rfl
    | some v =>
      by_cases hb : 100 ≤ v ∧ v ≤ 200
      · have h0 : 0 < v := lt_of_lt_of_le (by norm_num) hb.1
        simp [hb, h0]
      · simp [hb]
  | failure => rfl
  | badStatus => rfl
  | noResult => rfl

/-- The ledger invariant carried through every operation: non-negative
cash, shares and price, and a history of at most 50 entries. -/
def LedgerInv (s : GameState) : Prop :=
  0 ≤ s.cashBalance ∧ 0 ≤ s.shares ∧ 0 ≤ s.currentPrice ∧
    s.transactionHistory.length ≤ 50

/-- Lemma: `addTransaction` never lets the history exceed 50 entries. -/
lemma addTransaction_length (ty : TxType) (a : ℤ) (p : ℚ) (now : ℕ)
    (s : GameState) :
    (addTransaction ty a p now s).transactionHistory.length ≤ 50 := by
  simp only [addTransaction]
  split
  · simp
  · rename_i h
    simp only [List.length_cons, not_lt] at h
    simpa using h

/-- A rejected `buy` leaves the state unchanged. -/
lemma buyApply_of_error (a : ℤ) (now : ℕ) (s : GameState)
    (h : ¬ (¬ a ≤ 0 ∧ ¬ s.currentPrice = 0 ∧
            ¬ s.cashBalance < (a : ℚ) * s.currentPrice)) :
    buyApply a now s = s := by
  by_cases ha : a ≤ 0
  · simp [buyApply, buy, ha]
  by_cases hp : s.currentPrice = 0
  · simp [buyApply, buy, ha, hp]
  by_cases hc : s.cashBalance < (a : ℚ) * s.currentPrice
  · simp [buyApply, buy, ha, hp, hc]
  exact absurd ⟨ha, hp, hc⟩ h

/-- A rejected `sell` leaves the state unchanged. -/
lemma sellApply_of_error (a : ℤ) (now : ℕ) (s : GameState)
    (h : ¬ (¬ a ≤ 0 ∧ ¬ s.currentPrice = 0 ∧ ¬ s.shares < a)) :
    sellApply a now s = s := by
  by_cases ha : a ≤ 0
  · simp [sellApply, sell, ha]
  by_cases hp : s.currentPrice = 0
  · simp [sellApply, sell, ha, hp]
  by_cases hc : s.shares < a
  · simp [sellApply, sell, ha, hp, hc]
  exact absurd ⟨ha, hp, hc⟩ h

/-- Lemma: `buy` preserves the ledger invariant. -/
lemma inv_buyApply (a : ℤ) (now : ℕ) {s : GameState} (h : LedgerInv s) :
    LedgerInv (buyApply a now s) := by
  obtain ⟨h1, h2, h3, h4⟩ := h
  by_cases hok : ¬ a ≤ 0 ∧ ¬ s.currentPrice = 0 ∧
      ¬ s.cashBalance < (a : ℚ) * s.currentPrice
  · obtain ⟨ha, hp, hc⟩ := hok
    have hb : buyApply a now s = addTransaction .buy a s.currentPrice now
        { s with cashBalance := s.cashBalance - (a : ℚ) * s.currentPrice,
                 shares := s.shares + a } := by
      simp [buyApply, buy_ok now ha hp hc]
    rw [hb]
    refine ⟨?_, ?_, ?_, addTransaction_length _ _ _ _ _⟩
    · simp only [addTransaction_cashBalance]
      have := not_lt.mp hc
      linarith
    · simp only [addTransaction_shares]
      omega
    · simpa using h3
  · rw [buyApply_of_error a now s hok]
    exact ⟨h1, h2, h3, h4⟩

/-- Lemma: `sell` preserves the ledger invariant. -/
lemma inv_sellApply (a : ℤ) (now : ℕ) {s : GameState} (h : LedgerInv s) :
    LedgerInv (sellApply a now s) := by
  obtain ⟨h1, h2, h3, h4⟩ := h
  by_cases hok : ¬ a ≤ 0 ∧ ¬ s.currentPrice = 0 ∧ ¬ s.shares < a
  · obtain ⟨ha, hp, hc⟩ := hok
    have hb : sellApply a now s = addTransaction .sell a s.currentPrice now
        { s with cashBalance := s.cashBalance + (a : ℚ) * s.currentPrice,
                 shares := s.shares - a } := by
      simp [sellApply, sell_ok now ha hp hc]
    rw [hb]
    refine ⟨?_, ?_, ?_, addTransaction_length _ _ _ _ _⟩
    · simp only [addTransaction_cashBalance]
      have hrev : 0 ≤ (a : ℚ) * s.currentPrice := by
        have ha' : (0 : ℚ) ≤ (a : ℚ) := by
          exact_mod_cast le_of_lt (not_le.mp ha)
        exact mul_nonneg ha' h3
      linarith
    · simp only [addTransaction_shares]
      omega
    · simpa using h3
  · rw [sellApply_of_error a now s hok]
    exact ⟨h1, h2, h3, h4⟩

/-- The `fetchPrice` mutation preserves the ledger invariant. -/
lemma inv_priceApply (p : Option ℚ) (now : ℕ) {s : GameState} (h : LedgerInv s) :
    LedgerInv (fetchPriceApply p now s).1 := by
  obtain ⟨h1, h2, h3, h4⟩ := h
  cases p with
  | none =>
    by_cases hc : s.currentPrice = 0
    · exact ⟨by simpa [fetchPriceApply, hc] using h1,
        by simpa [fetchPriceApply, hc] using h2,
        by simp [fetchPriceApply, hc],
        by simpa [fetchPriceApply, hc] using h4⟩
    · have he : (fetchPriceApply none now s).1 = s := by
        simp [fetchPriceApply, hc]
      rw [he]
      exact ⟨h1, h2, h3, h4⟩
  | some v =>
    by_cases hv : 0 < v
    · exact ⟨by simpa [fetchPriceApply, hv] using h1,
        by simpa [fetchPriceApply, hv] using h2,
        by simpa [fetchPriceApply, hv] using hv.le,
        by simpa [fetchPriceApply, hv] using h4⟩
    · by_cases hc : s.currentPrice = 0
      · exact ⟨by simpa [fetchPriceApply, hv, hc] using h1,
          by simpa [fetchPriceApply, hv, hc] using h2,
          by simp [fetchPriceApply, hv, hc],
          by simpa [fetchPriceApply, hv, hc] using h4⟩
      · have he : (fetchPriceApply (some v) now s).1 = s := by
          simp [fetchPriceApply, hv, hc]
        rw [he]
        exact ⟨h1, h2, h3, h4⟩

/-- Lemma: `reset` preserves the ledger invariant. -/
lemma inv_reset (c : Bool) {s : GameState} (h : LedgerInv s) :
    LedgerInv (reset c s) := by
  obtain ⟨h1, h2, h3, h4⟩ := h
  cases c
  · exact ⟨by simpa [reset] using h1, by simpa [reset] using h2,
      by simpa [reset] using h3, by simpa [reset] using h4⟩
  · exact ⟨by norm_num [reset], by norm_num [reset],
      by simpa [reset] using h3, by simp [reset]⟩

/-- Loading a blob saved from an invariant-satisfying state yields an
invariant-satisfying state. -/
lemma inv_load {s t : GameState} (ht : LedgerInv t) :
    LedgerInv (loadState (some (saveState t)) s) := by
  obtain ⟨h1, h2, h3, h4⟩ := ht
  refine ⟨?_, ?_, ?_, ?_⟩
  · simp only [loadState, saveState, jsOr]
    split
    · norm_num
    · exact h1
  · simp only [loadState, saveState, jsOrInt]
    split
    · norm_num
    · exact h2
  · simp only [loadState, saveState, jsOr]
    split
    · norm_num
    · exact h3
  · simpa [loadState, saveState] using h4

/-- Every reachable state satisfies the ledger invariant. -/
lemma reachable_inv {s : GameState} (h : Reachable s) : LedgerInv s := by
  induction h with
  | init =>
    exact ⟨by norm_num [initialState], by norm_num [initialState],
      by norm_num [initialState], by simp [initialState]⟩
  | buyStep a now _ ih => exact inv_buyApply a now ih
  | sellStep a now _ ih => exact inv_sellApply a now ih
  | priceStep p now _ ih => exact inv_priceApply p now ih
  | resetStep c _ ih => exact inv_reset c ih
  | loadStep _ _ ihs iht => exact inv_load iht
  | loadNoneStep _ ih => simpa [loadState] using ih

/-- C1: after any sequence of the ledger operations (buy, sell, price
update, reset, load of a saved state) starting from the initial state,
the cash balance and the share count are non-negative. -/
theorem cash_shares_nonneg (s : GameState) (h : Reachable s) :
    0 ≤ s.cashBalance ∧ 0 ≤ s.shares :=
  ⟨(reachable_inv h).1, (reachable_inv h).2.1⟩

/-- Witness for C1: a concrete reachable state — seed the price by a
failed first fetch, then buy 10 shares — has non-negative cash and
shares. -/
theorem cash_shares_nonneg_witness :
    0 ≤ (buyApply 10 7 (fetchPriceApply none 0 initialState).1).cashBalance ∧
    0 ≤ (buyApply 10 7 (fetchPriceApply none 0 initialState).1).shares :=
  cash_shares_nonneg _
    (Reachable.buyStep 10 7 (Reachable.priceStep none 0 Reachable.init))

/-- C7: in every reachable state the transaction log has at most 50
entries, and `addTransaction` on a log of exactly 50 entries produces a
log of exactly 50 entries whose head is the new (most recent) transaction
and whose last (oldest) entry has been discarded. -/
theorem transactionLog_spec :
    (∀ s : GameState, Reachable s → s.transactionHistory.length ≤ 50)
  ∧ (∀ (ty : TxType) (a : ℤ) (p : ℚ) (now : ℕ) (s : GameState),
      s.transactionHistory.length = 50 →
      (addTransaction ty a p now s).transactionHistory =
        { type := ty, amount := a, price := p, total := (a : ℚ) * p,
          timestamp := now } :: s.transactionHistory.dropLast ∧
      (addTransaction ty a p now s).transactionHistory.length = 50) := by
  constructor
  · exact fun s h => (reachable_inv h).2.2.2
  · intro ty a p now s h50
    have hgt : 50 < s.transactionHistory.length + 1 := by omega
    constructor
    · simp only [addTransaction, List.length_cons, if_pos hgt, List.take_succ_cons]
      rw [List.dropLast_eq_take, h50]
    · simp only [addTransaction, List.length_cons, if_pos hgt, List.length_take]
      omega

/-- A sample log entry. -/
def fillTx : Transaction :=
  { type := .buy, amount := 1, price := 39000, total := 39000, timestamp := 0 }

/-- A state whose log already holds 50 entries. -/
def full50State : GameState :=
  { stateB with transactionHistory := List.replicate 50 fillTx }

/-- Witness for C7: a log of 50 identical buy entries, after one more
transaction, is again 50 long, headed by the new entry, with the oldest
gone. -/
theorem transactionLog_spec_witness :
    (addTransaction .sell 2 30000 9 full50State).transactionHistory =
      { type := .sell, amount := 2, price := 30000, total := (2 : ℚ) * 30000,
        timestamp := 9 } :: full50State.transactionHistory.dropLast ∧
    (addTransaction .sell 2 30000 9 full50State).transactionHistory.length = 50 :=
  transactionLog_spec.2 .sell 2 30000 9 full50State (by simp [full50State, stateB])

/-- A valid portfolio state whose cash balance happens to be exactly 0. -/
def zeroCashState : GameState := { initialState with cashBalance := 0 }

/-- Counterexample for C2: a state with `cashBalance = 0` (which the claim
admits: any `cashBalance ≥ 0`) does not survive the save/load round trip —
`loadState` reads the stored balance through `state.cashBalance || 1000000`,
and 0 is falsy, so the loaded state has cash 1,000,000 instead of 0. -/
theorem save_load_cex :
    0 ≤ zeroCashState.cashBalance ∧
    (loadState (some (saveState zeroCashState)) initialState).cashBalance
      = 1000000 ∧
    loadState (some (saveState zeroCashState)) initialState ≠ zeroCashState := by
  refine ⟨by norm_num [zeroCashState, initialState], by decide, fun h => ?_⟩
  have := congrArg GameState.cashBalance h
  revert this
  decide

/-- C2 (amended): for every portfolio state whose cash balance is nonzero,
`saveState` followed by `loadState` (applied to the constructor's fresh
state, as on startup) reproduces the state exactly; in particular every
transaction timestamp and `lastUpdate` come back as timestamp values
(`ℕ` here, `Date` in the code), reconstructed from their textual form.
When the cash balance is 0 the loaded state gets the default 1,000,000
instead (see the counterexample). -/
theorem save_load_roundtrip (s : GameState) (h : s.cashBalance ≠ 0) :
    loadState (some (saveState s)) initialState = s := by
  obtain ⟨cp, pp, cash, sh, hist, lu⟩ := s
  have h' : cash ≠ 0 := h
  simp only [loadState, saveState, jsOr, jsOrInt, GameState.mk.injEq]
  refine ⟨?_, ?_, ?_, ?_, ?_, ?_⟩
  · by_cases hcp : cp = 0 <;> simp [hcp]
  · by_cases hpp : pp = 0 <;> simp [hpp]
  · simp [h']
  · by_cases hsh : sh = 0 <;> simp [hsh]
  · induction hist with
    | nil => rfl
    | cons tx rest ih => simp_all [textToDate, dateToText, Nat.ofDigits_digits]
  · cases lu with
    | none => rfl
    | some t => simp [textToDate, dateToText, Nat.ofDigits_digits]

/-- A populated state used to witness the round trip: nonzero cash, a
transaction with a timestamp, and a last-update time. -/
def wRound : GameState :=
  { currentPrice := 40000
    previousPrice := 39500
    cashBalance := 120000
    shares := 22
    transactionHistory := [{ type := .buy, amount := 22, price := 40000,
                             total := 880000, timestamp := 1700000000123 }]
    lastUpdate := some 1700000000456 }

/-- Witness for C2 (amended): the populated state `wRound` survives the
save/load round trip exactly. -/
theorem save_load_roundtrip_witness :
    loadState (some (saveState wRound)) initialState = wRound :=
  save_load_roundtrip wRound (by norm_num [wRound])

/-- C6: whenever the chart response yields a positive quote whose
normalized home-currency value lies outside the 15,000-60,000 band,
`fetchFromYahoo` returns `null` — the same result as a network failure —
and `fetchPrice` applied to that result leaves `currentPrice` and
`previousPrice` unchanged whenever a price has already been observed
(`currentPrice ≠ 0`). -/
theorem band_reject (resp fxResp : FetchResponse) (r : ChartResult) (q : ℚ)
    (hresp : resp = .ok r) (hq : extractQuote r = some q) (h0 : 0 < q)
    (hband : normalizeQuote r.currency (fetchUsdJpyRate fxResp) q < 15000 ∨
             60000 < normalizeQuote r.currency (fetchUsdJpyRate fxResp) q) :
    fetchFromYahoo resp fxResp = none ∧
    ∀ (s : GameState) (now : ℕ), s.currentPrice ≠ 0 →
      (fetchPriceApply (fetchFromYahoo resp fxResp) now s).1.currentPrice
        = s.currentPrice ∧
      (fetchPriceApply (fetchFromYahoo resp fxResp) now s).1.previousPrice
        = s.previousPrice := by
  have hnone : fetchFromYahoo resp fxResp = none := by
    subst hresp
    simp [fetchFromYahoo, hq, h0, hband]
  refine ⟨hnone, fun s now hs => ?_⟩
  rw [hnone]
  simp [fetchPriceApply, hs]

/-- A chart response reporting a JPY quote of 70,000. -/
def chart70k : ChartResult :=
  { regularMarketPrice := some 70000, closes := none, currency := some .jpy }

/-- Witness for C6: the spec's example — a normalized value of 70,000 is
rejected as no-update and leaves the prices of `stateB` untouched. -/
theorem band_reject_witness :
    fetchFromYahoo (.ok chart70k) .failure = none ∧
    (fetchPriceApply (fetchFromYahoo (.ok chart70k) .failure) 3 stateB).1.currentPrice
      = stateB.currentPrice ∧
    (fetchPriceApply (fetchFromYahoo (.ok chart70k) .failure) 3 stateB).1.previousPrice
      = stateB.previousPrice := by
  have h := band_reject (.ok chart70k) .failure chart70k 70000 rfl
    (by simp [extractQuote, chart70k]) (by norm_num)
    (by norm_num [normalizeQuote, chart70k, fetchUsdJpyRate])
  exact ⟨h.1, (h.2 stateB 3 (by norm_num [stateB])).1,
    (h.2 stateB 3 (by norm_num [stateB])).2⟩
